import Mathlib

/-!
Verification of the `property_ai` frontend against its specification.

The frontend is a React/TypeScript single-page application (the repository
bundles three successive revisions of `App.tsx`; the latest revision is the
one starting around line 2030 of the bundled file, the two earlier revisions
start at lines ~120 and ~815).  The definitions below are a shallow embedding
of the pure computational core of that code: list filtering/sorting/grouping
of timeline items, upload-file validation, the HTTP-client wrapper, chat
history updates, the localStorage mirroring effects and the document-status
bookkeeping.

Modelling conventions:
* JavaScript strings are Lean `String`s; the JavaScript string operations
  (`toLowerCase`, `trim`, `endsWith`, `includes`, `split`) are implemented
  over the character list `String.data` so that everything reduces in the
  kernel.  `localeCompare` is modelled by the lexicographic order on `String`.
* `new Date(s).getTime()` for ISO `YYYY-MM-DD` strings is modelled at day
  granularity by `parseDateIso : String → Option Int` (epoch days);
  an invalid date (JavaScript `NaN`) is `none`.
* `Array.prototype.sort` (ES2019: stable) is modelled by a stable insertion
  sort; a comparator returning `NaN` is treated as `0`, exactly as the
  ECMAScript `SortCompare` operation does.
* Asynchronous effects (fetch outcomes, JSON.parse, message ids generated by
  `uuid()`, the current day) are passed in explicitly as parameters.
* JavaScript numbers that the code only ever uses as integers or compares
  (sizes, status codes, ids, timestamps) are `Nat`/`Int`.
-/

/-! ### JavaScript string primitives (over `List Char`) -/

/-- JavaScript `x || fallback` for strings: the empty string is falsy. -/
def jsOrStr (s fallback : String) : String :=
  if s = "" then fallback else s

/-- JavaScript `String.prototype.toLowerCase` (ASCII-faithful model). -/
def jsToLower (s : String) : String :=
  ⟨s.data.map Char.toLower⟩

/-- JavaScript `String.prototype.trim`. -/
def jsTrim (s : String) : String :=
  ⟨((s.data.dropWhile Char.isWhitespace).reverse.dropWhile Char.isWhitespace).reverse⟩

/-- JavaScript `String.prototype.endsWith`. -/
def jsEndsWith (s suffixStr : String) : Bool :=
  suffixStr.data.reverse.isPrefixOf s.data.reverse

/-- Substring test on character lists (`String.prototype.includes`). -/
def charListIncludes : List Char → List Char → Bool
  | [], needle => needle.isEmpty
  | l@(_ :: rest), needle => needle.isPrefixOf l || charListIncludes rest needle

/-- JavaScript `String.prototype.includes`. -/
def jsIncludes (s needle : String) : Bool :=
  charListIncludes s.data needle.data

/-- Digit-string to number; `none` when empty or not all digits. -/
def digitsToNat (l : List Char) : Option Nat :=
  if l.isEmpty || !(l.all Char.isDigit) then none
  else some (l.foldl (fun acc c => acc * 10 + (c.toNat - 48)) 0)

/-- Model of JavaScript `Number(s)` restricted to optionally-signed decimal
integer strings (the only shape this code ever writes: `String(intValue)`);
`none` models `NaN`. -/
def jsNumberInt (s : String) : Option Int :=
  match s.data with
  | '-' :: rest => (digitsToNat rest).map (fun n => -(n : Int))
  | l => (digitsToNat l).map (fun n => (n : Int))

/-- Split a character list on a separator character (`String.prototype.split`). -/
def splitOnChar (sep : Char) : List Char → List (List Char)
  | [] => [[]]
  | c :: rest =>
    let r := splitOnChar sep rest
    if c = sep then [] :: r
    else
      match r with
      | [] => [[c]]
      | seg :: segs => (c :: seg) :: segs

/-- JavaScript `s.replace(/\/+$/, "")`: strip all trailing slashes. -/
def stripTrailingSlashes (s : String) : String :=
  ⟨(s.data.reverse.dropWhile (· = '/')).reverse⟩

/-- The result of `localeCompare` as used by the timeline comparators,
modelled by the lexicographic order on `String`. -/
def strCompare (a b : String) : Int :=
  if a < b then -1 else if b < a then 1 else 0

/-! ### Calendar model: `new Date("YYYY-MM-DD").getTime()` at day granularity -/

/-- Gregorian leap-year test. -/
def isLeapYear (y : Nat) : Bool :=
  (y % 4 = 0 && y % 100 ≠ 0) || y % 400 = 0

/-- Days in month `m` of year `y` (1-based month). -/
def daysInMonth (y m : Nat) : Nat :=
  if m = 2 then (if isLeapYear y then 29 else 28)
  else if m = 4 || m = 6 || m = 9 || m = 11 then 30
  else 31

/-- Days in year `y` strictly before month `m`. -/
def daysBeforeMonth (y m : Nat) : Nat :=
  (List.range (m - 1)).foldl (fun acc i => acc + daysInMonth y (i + 1)) 0

/-- Rata-die day number of `y-m-d` (day 1 = 0001-01-01). -/
def rataDie (y m d : Nat) : Nat :=
  365 * (y - 1) + (y - 1) / 4 - (y - 1) / 100 + (y - 1) / 400 + daysBeforeMonth y m + d

/-- Days since the Unix epoch 1970-01-01 of the civil date `y-m-d`. -/
def epochDays (y m d : Nat) : Int :=
  (rataDie y m d : Int) - 719163

/-- Model of JavaScript `new Date(s).getTime()` for ISO `YYYY-MM-DD` strings,
at day granularity: `some` epoch days for a valid calendar date, `none` for
anything else (JavaScript `NaN` / Invalid Date). -/
def parseDateIso (s : String) : Option Int :=
  match (splitOnChar '-' s.data).map digitsToNat with
  | [some y, some m, some d] =>
    if 1 ≤ m && m ≤ 12 && 1 ≤ d && d ≤ daysInMonth y m then some (epochDays y m d)
    else none
  | _ => none

/-! ### Timeline categories (`normalizeCategory` / `timelinePriority`,
latest `App.tsx` lines 2062-2073; `categoryRank` in `TimelineCard.tsx` is the
same priority table) -/

/-- The category whitelist inlined in `normalizeCategory`. -/
def CATEGORY_VALUES : List String :=
  ["meeting", "payment", "deadline", "info", "tax"]

/-- `function normalizeCategory(category)`:
`["meeting","payment","deadline","info","tax"].includes(category) ? category : "info"`. -/
def normalizeCategory (category : String) : String :=
  if CATEGORY_VALUES.contains category then category else "info"

/-- `function timelinePriority(category)`: rank of the normalised category
(`deadline` 0, `payment` 1, `meeting` 2, `info` 3, otherwise — i.e. `tax` — 4);
the source binds `const normalized = normalizeCategory(category)`, inlined here. -/
def timelinePriority (category : String) : Int :=
  if normalizeCategory category = "deadline" then 0
  else if normalizeCategory category = "payment" then 1
  else if normalizeCategory category = "meeting" then 2
  else if normalizeCategory category = "info" then 3
  else 4

/-! ### Data model (DTO types from `types.ts`, first block of the bundled file) -/

/-- `Source` DTO (`document_id`, optional `property_id`, `chunk_id`, optional
`page`, optional `score`; `score` is a JavaScript number, modelled as `Int`
since the frontend never computes with it). -/
structure Source where
  document_id : Int
  property_id : Option Int
  chunk_id : String
  page : Option Int
  score : Option Int
deriving DecidableEq, Repr

/-- `DocumentItem` DTO as received from `GET /documents` (latest revision,
bundled file lines 11-16): `document_id`, `property_id`, `filename`, optional
`uploaded_at`.  Note: there is no status field. -/
structure DocumentItem where
  document_id : Int
  property_id : Int
  filename : String
  uploaded_at : Option String
deriving DecidableEq, Repr

/-- `ChatMessage` DTO: `id`, `role` (`"user" | "assistant"`), `text`, optional
`sources`, optional `sourceDetails` (a string record, modelled as an
association list). -/
structure ChatMessage where
  id : String
  role : String
  text : String
  sources : Option (List Source)
  sourceDetails : Option (List (String × String))
deriving DecidableEq, Repr

/-- `TimelineItem` DTO: optional provenance fields plus `title`, `date_iso`,
optional `time_24h`, `category`, optional `amount_eur` (a JavaScript number,
modelled as `Int`; the frontend never computes with it), `description`. -/
structure TimelineItem where
  document_id : Option Int
  filename : Option String
  source : Option String
  source_quote : Option String
  title : String
  date_iso : String
  time_24h : Option String
  category : String
  amount_eur : Option Int
  description : String
deriving DecidableEq, Repr

/-- A candidate upload `File` (the fields `validateFiles` reads). -/
structure JsFile where
  name : String
  type : String
  size : Nat
deriving DecidableEq, Repr

/-! ### Stable sort (ES2019 `Array.prototype.sort`) -/

/-- Insert `x` after every element `y` of `l` with `le y x`; the building
block of a stable insertion sort (a later-arriving tie lands after the
earlier element, as a stable sort requires). -/
def insertRight (le : α → α → Bool) (x : α) : List α → List α
  | [] => [x]
  | y :: ys => if le y x then y :: insertRight le x ys else x :: y :: ys

/-- Model of the ES2019 (stable) `Array.prototype.sort` with comparator
`cmp`; an element `a` may stay before `b` iff `cmp a b ≤ 0`.  A comparator
result of JavaScript `NaN` is mapped to `0` by the callers below, exactly as
the ECMAScript `SortCompare` operation does.  For comparators inducing a
total preorder (the only case any theorem below relies on) every stable sort
produces this same output. -/
def jsStableSort (cmp : α → α → Int) (l : List α) : List α :=
  l.foldl (fun acc x => insertRight (fun a b => cmp a b ≤ 0) x acc) []

/-! ### The timeline pipeline (latest `App.tsx`; the first revision at
bundled lines 594-612 sorts by date first, the two later revisions at lines
1682-1700 and 3074-3092 sort by category priority first) -/

/-- `a.time_24h || "99:99"`. -/
def timeSortKey (t : Option String) : String :=
  jsOrStr (t.getD "") "99:99"

/-- Comparator of the first-revision `filteredTimeline` (bundled lines
595-602): date first, then `timelinePriority`, then `time_24h`
(`localeCompare`).  When either date is `NaN` the JavaScript comparator
returns `NaN` (`da !== db` holds and `da - db` is `NaN`), which sorts as `0`. -/
def cmpDateFirst (a b : TimelineItem) : Int :=
  match parseDateIso a.date_iso, parseDateIso b.date_iso with
  | some da, some db =>
    if da ≠ db then da - db
    else
      let pa := timelinePriority (jsOrStr a.category "info")
      let pb := timelinePriority (jsOrStr b.category "info")
      if pa ≠ pb then pa - pb
      else strCompare (timeSortKey a.time_24h) (timeSortKey b.time_24h)
  | _, _ => 0

/-- Comparator of the latest `filteredTimeline` (bundled lines 3075-3082,
identically 1683-1690): `timelinePriority` first, then date, then `time_24h`.
As above, a `NaN` date makes the date comparison return `NaN`, sorting as `0`. -/
def cmpPriorityFirst (a b : TimelineItem) : Int :=
  let pa := timelinePriority (jsOrStr a.category "info")
  let pb := timelinePriority (jsOrStr b.category "info")
  if pa ≠ pb then pa - pb
  else
    match parseDateIso a.date_iso, parseDateIso b.date_iso with
    | some da, some db =>
      if da ≠ db then da - db
      else strCompare (timeSortKey a.time_24h) (timeSortKey b.time_24h)
    | _, _ => 0

/-- The filter applied after sorting (identical in all three revisions):
keep an item iff the selected category chip (if any) matches its normalised
category, and the trimmed lower-cased search string (if any) occurs in
`` `${item.title || ""} ${item.description || ""}` `` (for the `String`-typed
fields `|| ""` is the identity and is inlined). -/
def timelineFilterPred (timelineCategory timelineSearch : String)
    (item : TimelineItem) : Bool :=
  let category := normalizeCategory item.category
  if timelineCategory ≠ "" && category ≠ timelineCategory then false
  else
    let q := jsToLower (jsTrim timelineSearch)
    if q = "" then true
    else jsIncludes (jsToLower (item.title ++ " " ++ item.description)) q

/-- `filteredTimeline` of the first revision (bundled lines 594-612). -/
def filteredTimelineDateFirst (timelineItems : List TimelineItem)
    (timelineCategory timelineSearch : String) : List TimelineItem :=
  (jsStableSort cmpDateFirst timelineItems).filter
    (timelineFilterPred timelineCategory timelineSearch)

/-- `filteredTimeline` of the two later revisions (bundled lines 1682-1700 and
3074-3092). -/
def filteredTimelinePriorityFirst (timelineItems : List TimelineItem)
    (timelineCategory timelineSearch : String) : List TimelineItem :=
  (jsStableSort cmpPriorityFirst timelineItems).filter
    (timelineFilterPred timelineCategory timelineSearch)

/-- The per-item predicate of `timelineCurrentItems` (bundled lines
3099-3125).  `today` is the epoch-day number of local midnight (`start` in the
source); `next60`, `last14` and `infoNearFuture` are `today + 60`,
`today - 14` and `today + 7` (the source builds them with `setDate`).
An item whose `date_iso` does not parse (`Number.isNaN(dt.getTime())`)
returns `false`. -/
def timelineCurrentPred (today : Int) (item : TimelineItem) : Bool :=
  match parseDateIso item.date_iso with
  | none => false
  | some dt =>
    let category := normalizeCategory (jsOrStr item.category "info")
    let isInfo := category = "info"
    let isUpcomingNonInfo := !isInfo && decide (today ≤ dt)
    let isDeadlineOrPaymentSoon :=
      (category = "deadline" || category = "payment")
        && decide (today ≤ dt) && decide (dt ≤ today + 60)
    let isRecentlyRelevant := decide (dt < today) && decide (today - 14 ≤ dt)
    let isInfoNearFuture := isInfo && decide (today ≤ dt) && decide (dt ≤ today + 7)
    if isInfo then isInfoNearFuture || isRecentlyRelevant
    else isUpcomingNonInfo || isDeadlineOrPaymentSoon || isRecentlyRelevant

/-- `timelineCurrentItems` (bundled lines 3099-3125), as a function of the
already-filtered timeline. -/
def timelineCurrentItems (today : Int) (filteredTimeline : List TimelineItem) :
    List TimelineItem :=
  filteredTimeline.filter (timelineCurrentPred today)

/-- `timelineArchiveItems` (bundled lines 3127-3130): the filtered items not
contained in `timelineCurrentItems` (the source uses a `Set` of the current
items; with pairwise-distinct items reference equality and value equality
agree). -/
def timelineArchiveItems (today : Int) (filteredTimeline : List TimelineItem) :
    List TimelineItem :=
  filteredTimeline.filter
    (fun item => !((timelineCurrentItems today filteredTimeline).contains item))

/-! ### `groupTimelineByDate` (bundled lines 3132-3140) -/

/-- Append `x` to the group with key `key`, creating the group at the end if
absent — exactly the effect of
`if (!map.has(key)) map.set(key, []); map.get(key)!.push(item)` on a
JavaScript `Map`, which preserves insertion order. -/
def insertIntoGroup (key : String) (x : α) :
    List (String × List α) → List (String × List α)
  | [] => [(key, [x])]
  | (k, xs) :: rest =>
    if k = key then (k, xs ++ [x]) :: rest
    else (k, xs) :: insertIntoGroup key x rest

/-- Group a list by a key function, preserving first-occurrence key order and
in-group item order (JavaScript `Map` iteration order). -/
def groupByKey (keyOf : α → String) (items : List α) :
    List (String × List α) :=
  items.foldl (fun m item => insertIntoGroup (keyOf item) item m) []

/-- `item.date_iso || "Unbekannt"`. -/
def timelineGroupKey (item : TimelineItem) : String :=
  jsOrStr item.date_iso "Unbekannt"

/-- `groupTimelineByDate` (bundled lines 3132-3140): group items by
`date_iso`, empty dates under `"Unbekannt"`, returning `Array.from(map.entries())`. -/
def groupTimelineByDate (items : List TimelineItem) :
    List (String × List TimelineItem) :=
  groupByKey timelineGroupKey items

/-! ### Upload file validation (`validateFiles` / `addFiles`, bundled lines
2558-2596; the same function appears in the earlier revisions) -/

/-- `const MAX_FILE_SIZE = 20 * 1024 * 1024`. -/
def MAX_FILE_SIZE : Nat := 20 * 1024 * 1024

/-- `file.type === "application/pdf"`. -/
def isPdfType (f : JsFile) : Bool := f.type = "application/pdf"

/-- `file.name.toLowerCase().endsWith(".pdf")`. -/
def hasPdfExt (f : JsFile) : Bool := jsEndsWith (jsToLower f.name) ".pdf"

/-- `["application/zip", "application/x-zip-compressed"].includes(file.type)`. -/
def isZipType (f : JsFile) : Bool :=
  ["application/zip", "application/x-zip-compressed"].contains f.type

/-- `file.name.toLowerCase().endsWith(".zip")`. -/
def hasZipExt (f : JsFile) : Bool := jsEndsWith (jsToLower f.name) ".zip"

/-- The error message pushed for a file of the wrong kind. -/
def fileTypeError (f : JsFile) : String :=
  f.name ++ ": nur PDF- oder ZIP-Dateien sind erlaubt."

/-- The error message pushed for an oversized file. -/
def fileSizeError (f : JsFile) : String :=
  f.name ++ ": Datei ist größer als 20 MB."

/-- `validateFiles` (bundled lines 2558-2577): partition the candidate files
into `valid` and `errors`, walking the list once and pushing to one of the two
arrays per file. -/
def validateFiles : List JsFile → List JsFile × List String
  | [] => ([], [])
  | file :: rest =>
    if (!isPdfType file && !hasPdfExt file) && (!isZipType file && !hasZipExt file) then
      let r := validateFiles rest
      (r.1, fileTypeError file :: r.2)
    else if file.size > MAX_FILE_SIZE then
      let r := validateFiles rest
      (r.1, fileSizeError file :: r.2)
    else
      let r := validateFiles rest
      (file :: r.1, r.2)

/-- The acceptance criterion exactly as the specification words it
("its MIME type or lowercase filename extension identifies it as a PDF or ZIP
and its size is at most 20 * 1024 * 1024 bytes"); compared against
`validateFiles` in the C2 theorem. -/
def specUploadAccepted (f : JsFile) : Bool :=
  (isPdfType f || hasPdfExt f || isZipType f || hasZipExt f)
    && f.size ≤ MAX_FILE_SIZE

/-! ### HTTP client wrapper (`api.ts`: `ApiError`, `parseResponse`,
`normalizeApiError`, `apiCall`) -/

/-- `ApiError` (source lines 64-76): message, optional HTTP status, timeout
flag, optional measured latency. -/
structure ApiError where
  message : String
  status : Option Nat
  isTimeout : Bool
  latencyMs : Option Nat
deriving DecidableEq, Repr

/-- The `ApiError` constructor: `this.isTimeout = Boolean(opts.isTimeout)`,
so an absent flag becomes `false`. -/
def mkApiError (message : String) (status : Option Nat)
    (isTimeout : Option Bool) (latencyMs : Option Nat) : ApiError :=
  ⟨message, status, isTimeout.getD false, latencyMs⟩

/-- A JSON value (the shape `JSON.parse` can deliver). -/
inductive Json where
  | null
  | bool (b : Bool)
  | num (n : Int)
  | str (s : String)
  | arr (items : List Json)
  | obj (fields : List (String × Json))
deriving Repr

/-- JavaScript property access `body.key` on a parsed JSON value:
`none` models `undefined`. -/
def Json.getField : Json → String → Option Json
  | .obj fields, key => List.lookup key fields
  | _, _ => none

/-- JavaScript falsiness of `body.key` (`undefined`, `null`, `false`, `0`,
`""`). -/
def jsFalsyField : Option Json → Bool
  | none => true
  | some .null => true
  | some (.bool b) => !b
  | some (.num n) => n = 0
  | some (.str s) => s = ""
  | some _ => false

/-- String coercion applied by the `Error` constructor to its message
argument (exact only for the string case, the one the backend produces). -/
def jsDisplayString : Json → String
  | .str s => s
  | .num n => toString n
  | .bool b => if b then "true" else "false"
  | .null => "null"
  | .arr _ => ""
  | .obj _ => "[object Object]"

/-- The first truthy candidate of a `||` chain over JSON fields. -/
def firstTruthyField : List (Option Json) → Option Json
  | [] => none
  | c :: rest => if jsFalsyField c then firstTruthyField rest else c

/-- `body.detail || body.error || body.raw || `HTTP ${resp.status}``. -/
def errBodyMessage (body : Json) (status : Nat) : String :=
  match firstTruthyField
      [body.getField "detail", body.getField "error", body.getField "raw"] with
  | some v => jsDisplayString v
  | none => "HTTP " ++ toString status

/-- `parseResponse` (source lines 82-89): empty body parses to `{}`, a failed
`JSON.parse` yields `{ raw }`.  `JSON.parse` itself is a host builtin and is
passed in as `jsonParse`. -/
def parseResponse (jsonParse : String → Option Json) (raw : String) : Json :=
  if raw = "" then .obj []
  else
    match jsonParse raw with
    | some v => v
    | none => .obj [("raw", .str raw)]

/-- `normalizeApiError` restricted to `ApiError` arguments (source lines
91-95): the error's message, or the fallback when the message is empty. -/
def normalizeApiError (e : ApiError) (fallback : String) : String :=
  jsOrStr e.message fallback

/-- `const { timeoutMs = 15000, ...requestOptions } = options`. -/
def DEFAULT_TIMEOUT_MS : Nat := 15000

/-- The timeout armed on the `AbortController` timer for given options. -/
def resolvedTimeoutMs (timeoutMs : Option Nat) : Nat :=
  timeoutMs.getD DEFAULT_TIMEOUT_MS

/-- `Response.ok`: status in the inclusive range 200-299. -/
def respOk (status : Nat) : Bool := 200 ≤ status && status ≤ 299

/-- How a single `fetch` turns out, as seen by `apiCall`'s `try` block:
a response (any status) whose text was read, an `AbortError` rejection
(the timeout fired), or any other rejection (network error). -/
inductive FetchOutcome where
  | response (status : Nat) (raw : String)
  | abortError
  | jsError (message : Option String)
deriving Repr

/-- The value `apiCall` resolves with: `{ data, latencyMs, status }`. -/
structure ApiSuccess where
  data : Json
  latencyMs : Nat
  status : Nat
deriving Repr

/-- `apiCall` (source lines 97-134) as a function of the fetch outcome.
`jsonParse` is the host `JSON.parse`; `latencyMs` is the measured
`Math.max(1, Math.round(performance.now() - startedAt))`.  A non-OK response
throws an `ApiError` with that status; an `AbortError` (the timer fired)
throws a timeout `ApiError`; any other rejection is wrapped with
`error?.message || "Netzwerkfehler"`.  A thrown `ApiError` passes through the
`catch` unchanged (`if (error instanceof ApiError) throw error`). -/
def apiCall (jsonParse : String → Option Json) (latencyMs : Nat)
    (outcome : FetchOutcome) : Except ApiError ApiSuccess :=
  match outcome with
  | .response status raw =>
    let body := parseResponse jsonParse raw
    if respOk status then .ok ⟨body, latencyMs, status⟩
    else .error (mkApiError (errBodyMessage body status) (some status) none (some latencyMs))
  | .abortError =>
    .error (mkApiError "Zeitüberschreitung der Anfrage. Bitte erneut versuchen."
      none (some true) (some latencyMs))
  | .jsError msg =>
    .error (mkApiError (jsOrStr (msg.getD "") "Netzwerkfehler") none none (some latencyMs))

/-! ### `askChat` (latest revision, bundled lines 2751-2799) -/

/-- JavaScript falsiness of `activePropertyId : number | null`
(`!activePropertyId`): `null` or `0`. -/
def jsFalsyId : Option Int → Bool
  | none => true
  | some id => id = 0

/-- How the `POST /chat` request turns out: the parsed
`{ answer, sources }` payload (either field possibly absent), or a thrown
error already normalised to an `ApiError` by `apiCall`. -/
inductive ChatOutcome where
  | success (answer : Option String) (sources : Option (List Source))
  | failure (e : ApiError)

/-- The effect of one `askChat(question)` call on `chatHistory`.
`userMsgId` and `assistantMsgId` are the two `uuid()` results.  Guard order
as in the source: no active property → unchanged; empty trimmed question →
unchanged; otherwise the user message is appended and then exactly one
assistant message (answer text and sources on success — `data.answer || ""`,
`data.sources || []`, `sourceDetails: {}` — or `Fehler: …` text and no
sources on failure). -/
def askChat (activePropertyId : Option Int) (question : String)
    (userMsgId assistantMsgId : String) (outcome : ChatOutcome)
    (chatHistory : List ChatMessage) : List ChatMessage :=
  if jsFalsyId activePropertyId then chatHistory
  else if jsTrim question = "" then chatHistory
  else
    let q := jsTrim question
    let withUser := chatHistory ++ [⟨userMsgId, "user", q, none, none⟩]
    match outcome with
    | .success answer sources =>
      withUser ++ [⟨assistantMsgId, "assistant", answer.getD "",
        some (sources.getD []), some []⟩]
    | .failure e =>
      withUser ++ [⟨assistantMsgId, "assistant",
        "Fehler: " ++ normalizeApiError e "Unbekannter Fehler", none, none⟩]

/-! ### localStorage mirroring (latest revision: keys at bundled lines
2036-2040, state initialisers at 2109-2132, effects at 2171-2177 and
2246-2271) -/

/-- `const BASE_KEY = "ndiah_base_url"`. -/
def BASE_KEY : String := "ndiah_base_url"

/-- The chat-history key stem (source constant `CHAT_HISTORY_KEY_` + `PREFIX`,
value `"ndiah_chat_history"`). -/
def CHAT_HISTORY_KEY_STEM : String := "ndiah_chat_history"

/-- `const ACTIVE_PROPERTY_KEY = "ndiah_active_property_id"`. -/
def ACTIVE_PROPERTY_KEY : String := "ndiah_active_property_id"

/-- `const AUTH_TOKEN_KEY = "ndiah_firebase_id_token"` (only ever removed). -/
def AUTH_TOKEN_KEY : String := "ndiah_firebase_id_token"

/-- `const LANGUAGE_KEY = "ndiah_language"`. -/
def LANGUAGE_KEY : String := "ndiah_language"

/-- The per-property chat history key `` `${…}:${activePropertyId}` ``. -/
def chatHistoryKeyFor (pid : Int) : String :=
  CHAT_HISTORY_KEY_STEM ++ ":" ++ toString pid

/-- A localStorage write. -/
inductive StorageOp where
  | setItem (key value : String)
  | removeItem (key : String)
deriving DecidableEq, Repr

/-- The key a storage operation touches. -/
def StorageOp.key : StorageOp → String
  | .setItem k _ => k
  | .removeItem k => k

/-- Effect `useEffect(() => { localStorage.setItem(BASE_KEY, apiBase) },
[apiBase])` (bundled line 2172). -/
def apiBaseMirrorOp (apiBase : String) : StorageOp :=
  .setItem BASE_KEY apiBase

/-- Effect `useEffect(() => { localStorage.setItem(LANGUAGE_KEY,
selectedLanguage) }, [selectedLanguage])` (bundled line 2176). -/
def languageMirrorOp (selectedLanguage : String) : StorageOp :=
  .setItem LANGUAGE_KEY selectedLanguage

/-- Effect on `[activePropertyId]` (bundled lines 2246-2252): remove the key
when no property is selected, else store the id. -/
def activePropertyMirrorOp (activePropertyId : Option Int) : StorageOp :=
  match activePropertyId with
  | none => .removeItem ACTIVE_PROPERTY_KEY
  | some id => .setItem ACTIVE_PROPERTY_KEY (toString id)

/-- Effect on `[chatHistory, activePropertyId]` (bundled lines 2254-2257):
store the serialised history under the per-property key, skipped when
`!activePropertyId`.  `serializedHistory` is the `JSON.stringify` result. -/
def chatHistoryMirrorOp (activePropertyId : Option Int)
    (serializedHistory : String) : Option StorageOp :=
  match activePropertyId with
  | none => none
  | some id =>
    if id = 0 then none
    else some (.setItem (chatHistoryKeyFor id) serializedHistory)

/-- All state-mirroring localStorage writes of the latest `App` revision for
one state snapshot (the four persistence effects above, in source order). -/
def appMirrorOps (apiBase selectedLanguage : String)
    (activePropertyId : Option Int) (serializedHistory : String) :
    List StorageOp :=
  [apiBaseMirrorOp apiBase, languageMirrorOp selectedLanguage,
    activePropertyMirrorOp activePropertyId]
  ++ (chatHistoryMirrorOp activePropertyId serializedHistory).toList

/-- `DEFAULT_API_BASE = (import.meta.env.VITE_API_BASE_URL ||
"http://127.0.0.1:8000").replace(/\/+$/, "")` (bundled line 2041);
`envBaseUrl` is the build-time environment value. -/
def defaultApiBase (envBaseUrl : Option String) : String :=
  stripTrailingSlashes (jsOrStr (envBaseUrl.getD "") "http://127.0.0.1:8000")

/-- State initialiser of `apiBase` (bundled lines 2109-2111):
`(localStorage.getItem(BASE_KEY) || DEFAULT_API_BASE).replace(/\/+$/, "")`. -/
def initApiBase (envBaseUrl stored : Option String) : String :=
  stripTrailingSlashes (jsOrStr (stored.getD "") (defaultApiBase envBaseUrl))

/-- `parseLanguage` (bundled lines 2054-2057): `"en"` and `"fr"` pass
through, anything else — including `null` — becomes `"de"`; used to
initialise `selectedLanguage` from `localStorage.getItem(LANGUAGE_KEY)`. -/
def parseLanguage (raw : Option String) : String :=
  match raw with
  | some "en" => "en"
  | some "fr" => "fr"
  | _ => "de"

/-- State initialiser of `activePropertyId` (bundled lines 2127-2132): read
the stored string; `null`/empty is no selection; otherwise `Number(raw)` when
finite, else no selection. -/
def initActivePropertyId (stored : Option String) : Option Int :=
  match stored with
  | none => none
  | some raw =>
    if raw = "" then none
    else
      match jsNumberInt raw with
      | some parsed => some parsed
      | none => none

/-- The chat-history loading effect on `[activePropertyId]` (bundled lines
2263-2274): no property → `[]`; otherwise parse the stored string, with
non-arrays and parse failures (`deserialize` = `none`) becoming `[]`. -/
def loadStoredChatHistory (deserialize : String → Option (List ChatMessage))
    (activePropertyId : Option Int) (stored : Option String) :
    List ChatMessage :=
  match activePropertyId with
  | none => []
  | some id =>
    if id = 0 then []
    else
      match stored with
      | none => []
      | some raw => if raw = "" then [] else (deserialize raw).getD []

/-- The three localStorage keys the specification describes as the only
mirrored UX-continuity state ("the chat history … under its per-property key,
the selected property id … , and the API base URL"); compared against the
code's mirroring effects in the C5 theorems. -/
def specClaimedMirrorKeys (pid : Int) : List String :=
  [chatHistoryKeyFor pid, ACTIVE_PROPERTY_KEY, BASE_KEY]

/-! ### Document statuses (`loadDocuments`, bundled lines 2449-2476) -/

/-- The `documentStatuses` update in `loadDocuments` (bundled lines
2460-2467): `const next = { ...prev }; for (const doc of normalized) if
(!next[doc.document_id]) next[doc.document_id] = "indexed"; return next` —
every listed document that has no client-side status yet defaults to
`"indexed"`.  The record is modelled as an association list (statuses are
never the empty string, so JavaScript falsiness is `lookup = none`). -/
def updateDocumentStatuses (prev : List (Int × String))
    (docs : List DocumentItem) : List (Int × String) :=
  docs.foldl
    (fun next doc =>
      match List.lookup doc.document_id next with
      | some _ => next
      | none => next ++ [(doc.document_id, "indexed")])
    prev

/-! ### Derived keys and concrete items used by the claim theorems -/

/-- The category-priority sort key `timelinePriority(item.category || "info")`. -/
def timelinePriorityKey (a : TimelineItem) : Int :=
  timelinePriority (jsOrStr a.category "info")

/-- The date sort key of an item (its parsed `date_iso`; only read under the
hypothesis that the date parses, the default is irrelevant). -/
def timelineDateKey (a : TimelineItem) : Int :=
  (parseDateIso a.date_iso).getD 0

/-- A `deadline` item dated 2026-01-02. -/
def cxDeadlineLater : TimelineItem :=
  ⟨none, none, none, none, "Frist", "2026-01-02", none, "deadline", none, ""⟩

/-- A `payment` item dated 2026-01-01, one day earlier. -/
def cxPaymentEarlier : TimelineItem :=
  ⟨none, none, none, none, "Zahlung", "2026-01-01", none, "payment", none, ""⟩

/-- The lexicographic "may stay before" order (first component, then second,
then the string): both timeline comparators reduce to it when the dates
parse. -/
def lex3Le (p1 p2 d1 d2 : Int) (t1 t2 : String) : Prop :=
  p1 < p2 ∨ (p1 = p2 ∧ (d1 < d2 ∨ (d1 = d2 ∧ t1 ≤ t2)))

/-! # Theorems -/

/-! ### Stable-sort infrastructure -/

/-- Membership in `insertRight`. -/
theorem mem_insertRight (le : α → α → Bool) (x a : α) (l : List α) :
    a ∈ insertRight le x l ↔ a = x ∨ a ∈ l := by
  induction l with
  | nil => simp [insertRight]
  | cons y ys ih =>
    by_cases h : le y x
    · simp only [insertRight, h, if_pos, List.mem_cons, ih]
      try tauto
    · simp only [insertRight, h, if_neg, Bool.false_eq_true, not_false_iff,
        List.mem_cons]
      try tauto

/-- `insertRight` permutes to consing. -/
theorem insertRight_perm (le : α → α → Bool) (x : α) (l : List α) :
    (insertRight le x l).Perm (x :: l) := by
  induction l with
  | nil => simp [insertRight]
  | cons y ys ih =>
    by_cases h : le y x
    · simp only [insertRight, h, if_pos]
      exact (ih.cons y).trans (List.Perm.swap x y ys)
    · simp [insertRight, h]

/-- The insertion fold permutes to appending. -/
theorem foldl_insertRight_perm (le : α → α → Bool) :
    ∀ (l acc : List α),
      (l.foldl (fun acc x => insertRight le x acc) acc).Perm (acc ++ l)
  | [], acc => by simp
  | x :: xs, acc => by
    simp only [List.foldl_cons]
    have h1 := foldl_insertRight_perm le xs (insertRight le x acc)
    have h2 : (insertRight le x acc ++ xs).Perm ((x :: acc) ++ xs) :=
      (insertRight_perm le x acc).append_right xs
    exact (h1.trans h2).trans
      (by simpa using
        (List.perm_middle : (acc ++ x :: xs).Perm (x :: (acc ++ xs))).symm)

/-- `jsStableSort` is a permutation of its input. -/
theorem jsStableSort_perm (cmp : α → α → Int) (l : List α) :
    (jsStableSort cmp l).Perm l := by
  simpa [jsStableSort] using
    foldl_insertRight_perm (fun a b => decide (cmp a b ≤ 0)) l []

/-- Inserting into a sorted list keeps it sorted, with totality and
transitivity of the order required only on elements satisfying `P`. -/
theorem pairwise_insertRight (le : α → α → Bool) (P : α → Prop)
    (total : ∀ a b, P a → P b → le a b = true ∨ le b a = true)
    (trans : ∀ a b c, P a → P b → P c →
      le a b = true → le b c = true → le a c = true)
    (x : α) (l : List α) (hx : P x) (hl : ∀ a ∈ l, P a)
    (h : l.Pairwise (fun a b => le a b = true)) :
    (insertRight le x l).Pairwise (fun a b => le a b = true) := by
  induction l with
  | nil => simp [insertRight]
  | cons y ys ih =>
    rcases List.pairwise_cons.mp h with ⟨hy, hys⟩
    by_cases hle : le y x
    · simp only [insertRight, hle, if_pos]
      refine List.pairwise_cons.mpr ⟨?_, ih (fun a ha => hl a (List.mem_cons_of_mem y ha)) hys⟩
      intro z hz
      rcases (mem_insertRight le x z ys).mp hz with rfl | hz'
      · exact hle
      · exact hy z hz'
    · have hxy : le x y = true := by
        rcases total x y hx (hl y (List.mem_cons_self y ys)) with h' | h'
        · exact h'
        · exact absurd h' hle
      simp only [insertRight, hle, if_neg, Bool.false_eq_true, not_false_iff]
      refine List.pairwise_cons.mpr ⟨?_, h⟩
      intro z hz
      rcases List.mem_cons.mp hz with rfl | hz'
      · exact hxy
      · exact trans x y z hx (hl y (List.mem_cons_self y ys))
          (hl z (List.mem_cons_of_mem y hz')) hxy (hy z hz')

/-- The insertion fold sorts, with order assumptions restricted to `P`. -/
theorem pairwise_foldl_insertRight (le : α → α → Bool) (P : α → Prop)
    (total : ∀ a b, P a → P b → le a b = true ∨ le b a = true)
    (trans : ∀ a b c, P a → P b → P c →
      le a b = true → le b c = true → le a c = true) :
    ∀ (l acc : List α), (∀ a ∈ acc, P a) → (∀ a ∈ l, P a) →
      acc.Pairwise (fun a b => le a b = true) →
      (l.foldl (fun acc x => insertRight le x acc) acc).Pairwise
        (fun a b => le a b = true)
  | [], _, _, _, hp => hp
  | x :: xs, acc, hacc, hl, hp => by
    simp only [List.foldl_cons]
    apply pairwise_foldl_insertRight le P total trans xs (insertRight le x acc)
    · intro a ha
      rcases (mem_insertRight le x a acc).mp ha with rfl | h
      · exact hl a (List.mem_cons_self a xs)
      · exact hacc a h
    · intro a ha
      exact hl a (List.mem_cons_of_mem x ha)
    · exact pairwise_insertRight le P total trans x acc
        (hl x (List.mem_cons_self x xs)) hacc hp

/-- `jsStableSort` sorts with respect to its comparator, with totality and
transitivity required only on elements satisfying `P`. -/
theorem pairwise_jsStableSort (cmp : α → α → Int) (P : α → Prop)
    (total : ∀ a b, P a → P b → cmp a b ≤ 0 ∨ cmp b a ≤ 0)
    (trans : ∀ a b c, P a → P b → P c →
      cmp a b ≤ 0 → cmp b c ≤ 0 → cmp a c ≤ 0)
    (l : List α) (hl : ∀ a ∈ l, P a) :
    (jsStableSort cmp l).Pairwise (fun a b => cmp a b ≤ 0) := by
  have h := pairwise_foldl_insertRight (fun a b => decide (cmp a b ≤ 0)) P
    (fun a b ha hb => by
      rcases total a b ha hb with h | h
      · exact Or.inl (decide_eq_true h)
      · exact Or.inr (decide_eq_true h))
    (fun a b c ha hb hc h1 h2 =>
      decide_eq_true (trans a b c ha hb hc (of_decide_eq_true h1) (of_decide_eq_true h2)))
    l [] (by simp) hl (by simp)
  exact List.Pairwise.imp (fun hab => of_decide_eq_true hab) h


/-- `normalizeCategory` phrased with propositional membership. -/
theorem normalizeCategory_eq_mem (c : String) :
    normalizeCategory c = if c ∈ CATEGORY_VALUES then c else "info" := by
  unfold normalizeCategory
  simp [List.contains]

/-- C8: `normalizeCategory` is the identity on the five whitelisted category
strings and `"info"` otherwise; consequently its output always lies in the
whitelist, it is idempotent, and `timelinePriority` always returns a value
in `{0,1,2,3,4}`. -/
theorem normalizeCategory_spec (c : String) :
    (normalizeCategory c = if c ∈ CATEGORY_VALUES then c else "info")
    ∧ normalizeCategory c ∈ CATEGORY_VALUES
    ∧ normalizeCategory (normalizeCategory c) = normalizeCategory c
    ∧ (0 ≤ timelinePriority c ∧ timelinePriority c ≤ 4) := by
  have he := normalizeCategory_eq_mem c
  refine ⟨he, ?_, ?_, ?_⟩
  · rw [he]
    by_cases h : c ∈ CATEGORY_VALUES
    · rwa [if_pos h]
    · rw [if_neg h]; decide
  · by_cases h : c ∈ CATEGORY_VALUES
    · rw [he, if_pos h, normalizeCategory_eq_mem, if_pos h]
    · rw [he, if_neg h, normalizeCategory_eq_mem,
        if_pos (by decide : "info" ∈ CATEGORY_VALUES)]
  · unfold timelinePriority
    split_ifs <;> norm_num

/-! ### Comparator characterisations -/

/-- `strCompare a b ≤ 0` is exactly `a ≤ b`. -/
theorem strCompare_nonpos (a b : String) : strCompare a b ≤ 0 ↔ a ≤ b := by
  unfold strCompare
  split_ifs with h1 h2
  · simp [h1.le]
  · constructor
    · intro h; omega
    · intro h; exact absurd h2 (not_lt.mpr h)
  · simp [not_lt.mp h2]

/-- `lex3Le` is total. -/
theorem lex3Le_total (p1 p2 d1 d2 : Int) (t1 t2 : String) :
    lex3Le p1 p2 d1 d2 t1 t2 ∨ lex3Le p2 p1 d2 d1 t2 t1 := by
  unfold lex3Le
  rcases lt_trichotomy p1 p2 with hp | hp | hp
  · exact Or.inl (Or.inl hp)
  · rcases lt_trichotomy d1 d2 with hd | hd | hd
    · exact Or.inl (Or.inr ⟨hp, Or.inl hd⟩)
    · rcases le_total t1 t2 with ht | ht
      · exact Or.inl (Or.inr ⟨hp, Or.inr ⟨hd, ht⟩⟩)
      · exact Or.inr (Or.inr ⟨hp.symm, Or.inr ⟨hd.symm, ht⟩⟩)
    · exact Or.inr (Or.inr ⟨hp.symm, Or.inl hd⟩)
  · exact Or.inr (Or.inl hp)

/-- `lex3Le` is transitive. -/
theorem lex3Le_trans {p1 p2 p3 d1 d2 d3 : Int} {t1 t2 t3 : String}
    (h1 : lex3Le p1 p2 d1 d2 t1 t2) (h2 : lex3Le p2 p3 d2 d3 t2 t3) :
    lex3Le p1 p3 d1 d3 t1 t3 := by
  unfold lex3Le at *
  rcases h1 with hp1 | ⟨hp1, hd1⟩
  · rcases h2 with hp2 | ⟨hp2, _⟩
    · exact Or.inl (by omega)
    · exact Or.inl (by omega)
  · rcases h2 with hp2 | ⟨hp2, hd2⟩
    · exact Or.inl (by omega)
    · refine Or.inr ⟨by omega, ?_⟩
      rcases hd1 with hd1 | ⟨hd1, ht1⟩
      · rcases hd2 with hd2 | ⟨hd2, _⟩
        · exact Or.inl (by omega)
        · exact Or.inl (by omega)
      · rcases hd2 with hd2 | ⟨hd2, ht2⟩
        · exact Or.inl (by omega)
        · exact Or.inr ⟨by omega, le_trans ht1 ht2⟩

/-- The shared `if/else` comparator shape reduces to `lex3Le`. -/
theorem lexCmp_le_iff (p1 p2 d1 d2 : Int) (t1 t2 : String) :
    ((if p1 ≠ p2 then p1 - p2
      else if d1 ≠ d2 then d1 - d2 else strCompare t1 t2) ≤ 0)
      ↔ lex3Le p1 p2 d1 d2 t1 t2 := by
  unfold lex3Le
  by_cases hp : p1 = p2
  · rw [if_neg (fun hcon => hcon hp)]
    by_cases hd : d1 = d2
    · rw [if_neg (fun hcon => hcon hd), strCompare_nonpos]
      subst hp
      subst hd
      simp [lt_irrefl]
    · rw [if_pos hd]
      subst hp
      constructor
      · intro h
        exact Or.inr ⟨rfl, Or.inl (by omega)⟩
      · rintro (h | ⟨-, h | ⟨h, -⟩⟩)
        · omega
        · omega
        · exact absurd h hd
  · rw [if_pos hp]
    constructor
    · intro h
      exact Or.inl (by omega)
    · rintro (h | ⟨h, -⟩)
      · omega
      · exact absurd h hp

/-- When both dates parse, the priority-first comparator accepts order
`a, b` exactly when `(priority, date, time)` of `a` is lexicographically at
most that of `b`. -/
theorem cmpPriorityFirst_le_iff {a b : TimelineItem} {da db : Int}
    (ha : parseDateIso a.date_iso = some da)
    (hb : parseDateIso b.date_iso = some db) :
    cmpPriorityFirst a b ≤ 0 ↔
      lex3Le (timelinePriorityKey a) (timelinePriorityKey b) da db
        (timeSortKey a.time_24h) (timeSortKey b.time_24h) := by
  have h := lexCmp_le_iff (timelinePriorityKey a) (timelinePriorityKey b)
    da db (timeSortKey a.time_24h) (timeSortKey b.time_24h)
  unfold cmpPriorityFirst
  rw [ha, hb]
  simpa [timelinePriorityKey] using h

/-- When both dates parse, the date-first comparator accepts order `a, b`
exactly when `(date, priority, time)` of `a` is lexicographically at most
that of `b`. -/
theorem cmpDateFirst_le_iff {a b : TimelineItem} {da db : Int}
    (ha : parseDateIso a.date_iso = some da)
    (hb : parseDateIso b.date_iso = some db) :
    cmpDateFirst a b ≤ 0 ↔
      lex3Le da db (timelinePriorityKey a) (timelinePriorityKey b)
        (timeSortKey a.time_24h) (timeSortKey b.time_24h) := by
  have h := lexCmp_le_iff da db (timelinePriorityKey a) (timelinePriorityKey b)
    (timeSortKey a.time_24h) (timeSortKey b.time_24h)
  unfold cmpDateFirst
  rw [ha, hb]
  simpa [timelinePriorityKey] using h

/-- Totality of the priority-first comparator on items with parsing dates. -/
theorem cmpPriorityFirst_total {a b : TimelineItem}
    (ha : (parseDateIso a.date_iso).isSome = true)
    (hb : (parseDateIso b.date_iso).isSome = true) :
    cmpPriorityFirst a b ≤ 0 ∨ cmpPriorityFirst b a ≤ 0 := by
  rcases Option.isSome_iff_exists.mp ha with ⟨da, hda⟩
  rcases Option.isSome_iff_exists.mp hb with ⟨db, hdb⟩
  rcases lex3Le_total (timelinePriorityKey a) (timelinePriorityKey b) da db
      (timeSortKey a.time_24h) (timeSortKey b.time_24h) with h | h
  · exact Or.inl ((cmpPriorityFirst_le_iff hda hdb).mpr h)
  · exact Or.inr ((cmpPriorityFirst_le_iff hdb hda).mpr h)

/-- Transitivity of the priority-first comparator on items with parsing
dates. -/
theorem cmpPriorityFirst_trans {a b c : TimelineItem}
    (ha : (parseDateIso a.date_iso).isSome = true)
    (hb : (parseDateIso b.date_iso).isSome = true)
    (hc : (parseDateIso c.date_iso).isSome = true)
    (h1 : cmpPriorityFirst a b ≤ 0) (h2 : cmpPriorityFirst b c ≤ 0) :
    cmpPriorityFirst a c ≤ 0 := by
  rcases Option.isSome_iff_exists.mp ha with ⟨da, hda⟩
  rcases Option.isSome_iff_exists.mp hb with ⟨db, hdb⟩
  rcases Option.isSome_iff_exists.mp hc with ⟨dc, hdc⟩
  exact (cmpPriorityFirst_le_iff hda hdc).mpr
    (lex3Le_trans ((cmpPriorityFirst_le_iff hda hdb).mp h1)
      ((cmpPriorityFirst_le_iff hdb hdc).mp h2))

/-- Totality of the date-first comparator on items with parsing dates. -/
theorem cmpDateFirst_total {a b : TimelineItem}
    (ha : (parseDateIso a.date_iso).isSome = true)
    (hb : (parseDateIso b.date_iso).isSome = true) :
    cmpDateFirst a b ≤ 0 ∨ cmpDateFirst b a ≤ 0 := by
  rcases Option.isSome_iff_exists.mp ha with ⟨da, hda⟩
  rcases Option.isSome_iff_exists.mp hb with ⟨db, hdb⟩
  rcases lex3Le_total da db (timelinePriorityKey a) (timelinePriorityKey b)
      (timeSortKey a.time_24h) (timeSortKey b.time_24h) with h | h
  · exact Or.inl ((cmpDateFirst_le_iff hda hdb).mpr h)
  · exact Or.inr ((cmpDateFirst_le_iff hdb hda).mpr h)

/-- Transitivity of the date-first comparator on items with parsing dates. -/
theorem cmpDateFirst_trans {a b c : TimelineItem}
    (ha : (parseDateIso a.date_iso).isSome = true)
    (hb : (parseDateIso b.date_iso).isSome = true)
    (hc : (parseDateIso c.date_iso).isSome = true)
    (h1 : cmpDateFirst a b ≤ 0) (h2 : cmpDateFirst b c ≤ 0) :
    cmpDateFirst a c ≤ 0 := by
  rcases Option.isSome_iff_exists.mp ha with ⟨da, hda⟩
  rcases Option.isSome_iff_exists.mp hb with ⟨db, hdb⟩
  rcases Option.isSome_iff_exists.mp hc with ⟨dc, hdc⟩
  exact (cmpDateFirst_le_iff hda hdc).mpr
    (lex3Le_trans ((cmpDateFirst_le_iff hda hdb).mp h1)
      ((cmpDateFirst_le_iff hdb hdc).mp h2))

/-! ### C1: order of `filteredTimeline` -/

/-- C1 (amended): when every timeline item's `date_iso` parses, the
first-revision `filteredTimeline` (date-first comparator, bundled lines
594-612) is sorted by date, and the `filteredTimeline` of both later
revisions (priority-first comparator, bundled lines 1682-1700 and 3074-3092)
is sorted by category priority first and by date only within equal
priorities. -/
theorem filteredTimeline_sorted (items : List TimelineItem) (cat q : String)
    (h : ∀ i ∈ items, (parseDateIso i.date_iso).isSome = true) :
    (filteredTimelinePriorityFirst items cat q).Pairwise
      (fun a b => timelinePriorityKey a < timelinePriorityKey b ∨
        (timelinePriorityKey a = timelinePriorityKey b ∧
          timelineDateKey a ≤ timelineDateKey b))
    ∧ (filteredTimelineDateFirst items cat q).Pairwise
      (fun a b => timelineDateKey a ≤ timelineDateKey b) := by
  constructor
  · have hsorted := pairwise_jsStableSort cmpPriorityFirst
      (fun i => (parseDateIso i.date_iso).isSome = true)
      (fun a b ha hb => cmpPriorityFirst_total ha hb)
      (fun a b c ha hb hc h1 h2 => cmpPriorityFirst_trans ha hb hc h1 h2) items h
    unfold filteredTimelinePriorityFirst
    have hfilter : (List.filter (timelineFilterPred cat q)
        (jsStableSort cmpPriorityFirst items)).Pairwise
        (fun a b => cmpPriorityFirst a b ≤ 0) :=
      hsorted.sublist (List.filter_sublist (jsStableSort cmpPriorityFirst items))
    refine List.Pairwise.imp_of_mem ?_ hfilter
    intro a b hma hmb hab
    have hPa := h a (((jsStableSort_perm cmpPriorityFirst items).mem_iff).mp
      (List.mem_of_mem_filter hma))
    have hPb := h b (((jsStableSort_perm cmpPriorityFirst items).mem_iff).mp
      (List.mem_of_mem_filter hmb))
    rcases Option.isSome_iff_exists.mp hPa with ⟨da, hda⟩
    rcases Option.isSome_iff_exists.mp hPb with ⟨db, hdb⟩
    rcases (cmpPriorityFirst_le_iff hda hdb).mp hab with hp | ⟨hp, hd⟩
    · exact Or.inl hp
    · refine Or.inr ⟨hp, ?_⟩
      rw [timelineDateKey, timelineDateKey, hda, hdb]
      rcases hd with hd | ⟨hd, -⟩
      · exact le_of_lt hd
      · exact le_of_eq hd
  · have hsorted := pairwise_jsStableSort cmpDateFirst
      (fun i => (parseDateIso i.date_iso).isSome = true)
      (fun a b ha hb => cmpDateFirst_total ha hb)
      (fun a b c ha hb hc h1 h2 => cmpDateFirst_trans ha hb hc h1 h2) items h
    unfold filteredTimelineDateFirst
    have hfilter : (List.filter (timelineFilterPred cat q)
        (jsStableSort cmpDateFirst items)).Pairwise
        (fun a b => cmpDateFirst a b ≤ 0) :=
      hsorted.sublist (List.filter_sublist (jsStableSort cmpDateFirst items))
    refine List.Pairwise.imp_of_mem ?_ hfilter
    intro a b hma hmb hab
    have hPa := h a (((jsStableSort_perm cmpDateFirst items).mem_iff).mp
      (List.mem_of_mem_filter hma))
    have hPb := h b (((jsStableSort_perm cmpDateFirst items).mem_iff).mp
      (List.mem_of_mem_filter hmb))
    rcases Option.isSome_iff_exists.mp hPa with ⟨da, hda⟩
    rcases Option.isSome_iff_exists.mp hPb with ⟨db, hdb⟩
    rw [timelineDateKey, timelineDateKey, hda, hdb]
    rcases (cmpDateFirst_le_iff hda hdb).mp hab with hd | ⟨hd, -⟩
    · exact le_of_lt hd
    · exact le_of_eq hd

/-- C1 counterexample: in the latest `filteredTimeline` a `deadline` item
dated 2026-01-02 precedes a `payment` item dated 2026-01-01 (both dates
parse), so the output is not sorted by ascending `date_iso`. -/
theorem filteredTimeline_not_date_sorted :
    filteredTimelinePriorityFirst [cxPaymentEarlier, cxDeadlineLater] "" ""
      = [cxDeadlineLater, cxPaymentEarlier]
    ∧ (parseDateIso cxDeadlineLater.date_iso).isSome = true
    ∧ (parseDateIso cxPaymentEarlier.date_iso).isSome = true
    ∧ timelineDateKey cxPaymentEarlier < timelineDateKey cxDeadlineLater := by
  decide

/-- Witness for `filteredTimeline_sorted` at a concrete two-item timeline. -/
theorem filteredTimeline_sorted_witness :
    (filteredTimelinePriorityFirst [cxPaymentEarlier, cxDeadlineLater] "" "").Pairwise
      (fun a b => timelinePriorityKey a < timelinePriorityKey b ∨
        (timelinePriorityKey a = timelinePriorityKey b ∧
          timelineDateKey a ≤ timelineDateKey b))
    ∧ (filteredTimelineDateFirst [cxPaymentEarlier, cxDeadlineLater] "" "").Pairwise
      (fun a b => timelineDateKey a ≤ timelineDateKey b) :=
  filteredTimeline_sorted [cxPaymentEarlier, cxDeadlineLater] "" "" (by decide)

/-! ### C2: upload file validation -/

/-- The first branch condition of `validateFiles` is the negation of the
specification's acceptance kind-test. -/
theorem validateFiles_kind_condition (f : JsFile) :
    ((!isPdfType f && !hasPdfExt f) && (!isZipType f && !hasZipExt f)) = true
      ↔ (isPdfType f || hasPdfExt f || isZipType f || hasZipExt f) = false := by
  cases hp : isPdfType f <;> cases hpe : hasPdfExt f <;>
    cases hz : isZipType f <;> cases hze : hasZipExt f <;> simp

/-- Core characterisation of `validateFiles` (shared helper): the valid list
is exactly the sub-list of files meeting the spec's acceptance criterion, in
order, and every rejected file contributes exactly one error message. -/
theorem validateFiles_eq_filter (files : List JsFile) :
    (validateFiles files).1 = files.filter specUploadAccepted
    ∧ (validateFiles files).2.length
        = (files.filter (fun f => !specUploadAccepted f)).length := by
  induction files with
  | nil => simp [validateFiles]
  | cons f rest ih =>
    by_cases hkind :
        ((!isPdfType f && !hasPdfExt f) && (!isZipType f && !hasZipExt f)) = true
    · have hspec : specUploadAccepted f = false := by
        unfold specUploadAccepted
        rw [(validateFiles_kind_condition f).mp hkind]
        simp
      simp [validateFiles, hkind, hspec, ih.1, ih.2]
    · have hor : (isPdfType f || hasPdfExt f || isZipType f || hasZipExt f) = true := by
        rcases Bool.eq_false_or_eq_true
            (isPdfType f || hasPdfExt f || isZipType f || hasZipExt f) with h | h
        · exact h
        · exact absurd ((validateFiles_kind_condition f).mpr h) hkind
      by_cases hsize : f.size > MAX_FILE_SIZE
      · have hspec : specUploadAccepted f = false := by
          unfold specUploadAccepted
          simp [Nat.not_le.mpr hsize]
        simp [validateFiles, hkind, hsize, hspec, ih.1, ih.2]
      · have hspec : specUploadAccepted f = true := by
          unfold specUploadAccepted
          simp [hor, Nat.le_of_not_lt hsize]
        simp [validateFiles, hkind, hsize, hspec, ih.1, ih.2]

/-- C2: `validateFiles` accepts a file into `valid` iff its MIME type or
lower-cased name extension marks it as PDF or ZIP and its size is at most
`20 * 1024 * 1024` bytes; every other file yields exactly one error message,
and the two output lists together account for every input file. -/
theorem validateFiles_spec (files : List JsFile) :
    (validateFiles files).1 = files.filter specUploadAccepted
    ∧ (validateFiles files).2.length
        = (files.filter (fun f => !specUploadAccepted f)).length
    ∧ (validateFiles files).1.length + (validateFiles files).2.length
        = files.length := by
  rcases validateFiles_eq_filter files with ⟨h1, h2⟩
  refine ⟨h1, h2, ?_⟩
  rw [h1, h2]
  exact (List.length_eq_length_filter_add specUploadAccepted).symm

/-! ### C9: current/archive partition of the filtered timeline -/

/-- Membership in `timelineCurrentItems`. -/
theorem mem_timelineCurrentItems {today : Int} {l : List TimelineItem}
    {x : TimelineItem} :
    x ∈ timelineCurrentItems today l ↔ x ∈ l ∧ timelineCurrentPred today x = true := by
  unfold timelineCurrentItems
  exact List.mem_filter

/-- Membership in `timelineArchiveItems`. -/
theorem mem_timelineArchiveItems {today : Int} {l : List TimelineItem}
    {x : TimelineItem} :
    x ∈ timelineArchiveItems today l
      ↔ x ∈ l ∧ x ∉ timelineCurrentItems today l := by
  unfold timelineArchiveItems
  rw [List.mem_filter]
  simp [List.contains]

/-- C9: for a filtered timeline with pairwise-distinct items,
`timelineCurrentItems` and `timelineArchiveItems` partition it — both lists
are duplicate-free and every item of the input belongs to exactly one of
them — and an item whose `date_iso` does not parse always lands in the
archive list, never in the current list. -/
theorem timeline_partition (today : Int) (l : List TimelineItem)
    (hnd : l.Nodup) :
    (timelineCurrentItems today l).Nodup
    ∧ (timelineArchiveItems today l).Nodup
    ∧ (∀ x ∈ l, (x ∈ timelineCurrentItems today l
        ↔ x ∉ timelineArchiveItems today l))
    ∧ (∀ x ∈ l, x ∈ timelineCurrentItems today l
        ∨ x ∈ timelineArchiveItems today l)
    ∧ (∀ x ∈ l, parseDateIso x.date_iso = none →
        x ∈ timelineArchiveItems today l ∧ x ∉ timelineCurrentItems today l) := by
  refine ⟨hnd.filter _, hnd.filter _, ?_, ?_, ?_⟩
  · intro x hx
    constructor
    · intro hcur harch
      exact (mem_timelineArchiveItems.mp harch).2 hcur
    · intro harch
      by_cases hcur : x ∈ timelineCurrentItems today l
      · exact hcur
      · exact absurd (mem_timelineArchiveItems.mpr ⟨hx, hcur⟩) harch
  · intro x hx
    by_cases hcur : x ∈ timelineCurrentItems today l
    · exact Or.inl hcur
    · exact Or.inr (mem_timelineArchiveItems.mpr ⟨hx, hcur⟩)
  · intro x hx hnone
    have hpred : timelineCurrentPred today x = false := by
      unfold timelineCurrentPred
      rw [hnone]
    have hcur : x ∉ timelineCurrentItems today l := by
      intro hmem
      rw [(mem_timelineCurrentItems.mp hmem).2] at hpred
      exact absurd hpred (by simp)
    exact ⟨mem_timelineArchiveItems.mpr ⟨hx, hcur⟩, hcur⟩

/-- Witness for `timeline_partition`: a concrete three-item filtered
timeline (one current deadline, one past payment, one unparseable date). -/
theorem timeline_partition_witness :
    (timelineCurrentItems 20454 [cxPaymentEarlier, cxDeadlineLater]).Nodup
    ∧ (timelineArchiveItems 20454 [cxPaymentEarlier, cxDeadlineLater]).Nodup
    ∧ (∀ x ∈ [cxPaymentEarlier, cxDeadlineLater],
        (x ∈ timelineCurrentItems 20454 [cxPaymentEarlier, cxDeadlineLater]
          ↔ x ∉ timelineArchiveItems 20454 [cxPaymentEarlier, cxDeadlineLater]))
    ∧ (∀ x ∈ [cxPaymentEarlier, cxDeadlineLater],
        x ∈ timelineCurrentItems 20454 [cxPaymentEarlier, cxDeadlineLater]
        ∨ x ∈ timelineArchiveItems 20454 [cxPaymentEarlier, cxDeadlineLater])
    ∧ (∀ x ∈ [cxPaymentEarlier, cxDeadlineLater], parseDateIso x.date_iso = none →
        x ∈ timelineArchiveItems 20454 [cxPaymentEarlier, cxDeadlineLater]
        ∧ x ∉ timelineCurrentItems 20454 [cxPaymentEarlier, cxDeadlineLater]) :=
  timeline_partition 20454 [cxPaymentEarlier, cxDeadlineLater] (by decide)

/-! ### C10: `groupTimelineByDate` -/

/-- Lookup after a group insertion. -/
theorem lookup_insertIntoGroup {α : Type} (key : String) (x : α)
    (m : List (String × List α)) (k : String) :
    List.lookup k (insertIntoGroup key x m)
      = if k = key then some ((List.lookup key m).getD [] ++ [x])
        else List.lookup k m := by
  induction m with
  | nil =>
    by_cases h : k = key
    · subst h
      simp [insertIntoGroup, List.lookup]
    · simp [insertIntoGroup, List.lookup, h, beq_false_of_ne h]
  | cons p rest ih =>
    obtain ⟨k', xs⟩ := p
    by_cases hk : k' = key
    · subst hk
      by_cases h : k = k'
      · subst h
        simp [insertIntoGroup, List.lookup]
      · simp [insertIntoGroup, List.lookup, h, beq_false_of_ne h]
    · by_cases h : k = k'
      · subst h
        simp [insertIntoGroup, List.lookup, hk, beq_false_of_ne hk,
          fun hcon => hk hcon]
      · simp [insertIntoGroup, List.lookup, hk, h, beq_false_of_ne h,
          beq_false_of_ne (Ne.symm hk), ih]

/-- The keys after a group insertion. -/
theorem keys_insertIntoGroup {α : Type} (key : String) (x : α)
    (m : List (String × List α)) :
    (insertIntoGroup key x m).map Prod.fst
      = if key ∈ m.map Prod.fst then m.map Prod.fst
        else m.map Prod.fst ++ [key] := by
  induction m with
  | nil => simp [insertIntoGroup]
  | cons p rest ih =>
    obtain ⟨k', xs⟩ := p
    by_cases hk : k' = key
    · subst hk
      simp [insertIntoGroup]
    · have hne : ¬ key = k' := fun hcon => hk hcon.symm
      by_cases hmem : key ∈ rest.map Prod.fst
      · simp [insertIntoGroup, hk, ih, hmem, hne]
      · simp [insertIntoGroup, hk, ih, hmem, hne]

/-- Group insertion keeps the key list duplicate-free. -/
theorem nodup_keys_insertIntoGroup {α : Type} (key : String) (x : α)
    (m : List (String × List α)) (h : (m.map Prod.fst).Nodup) :
    ((insertIntoGroup key x m).map Prod.fst).Nodup := by
  rw [keys_insertIntoGroup]
  by_cases hmem : key ∈ m.map Prod.fst
  · rwa [if_pos hmem]
  · rw [if_neg hmem]
    refine List.Nodup.append h (List.nodup_singleton key) ?_
    intro a ha hb
    rw [List.mem_singleton] at hb
    subst hb
    exact hmem ha

/-- Group insertion appends the element to the flattened contents, up to
permutation. -/
theorem flatten_insertIntoGroup {α : Type} (key : String) (x : α)
    (m : List (String × List α)) :
    (((insertIntoGroup key x m).map Prod.snd).flatten).Perm
      (((m.map Prod.snd).flatten) ++ [x]) := by
  induction m with
  | nil => simp [insertIntoGroup]
  | cons p rest ih =>
    obtain ⟨k', xs⟩ := p
    by_cases hk : k' = key
    · subst hk
      simp only [insertIntoGroup, if_pos rfl, List.map_cons, List.flatten_cons]
      have : (xs ++ [x] ++ (rest.map Prod.snd).flatten).Perm
          (xs ++ ((rest.map Prod.snd).flatten ++ [x])) := by
        rw [List.append_assoc]
        exact (List.Perm.append_left xs (List.perm_append_comm))
      simpa using this
    · simp only [insertIntoGroup, if_neg hk, List.map_cons, List.flatten_cons]
      have := List.Perm.append_left xs ih
      simpa [List.append_assoc] using this

/-- Unfolding `groupByKey` over a snoc. -/
theorem groupByKey_append_single {α : Type} (keyOf : α → String)
    (l : List α) (x : α) :
    groupByKey keyOf (l ++ [x])
      = insertIntoGroup (keyOf x) x (groupByKey keyOf l) := by
  unfold groupByKey
  rw [List.foldl_append]
  rfl

/-- Lookup in `groupByKey`: the group stored under `k` is exactly the
sub-list of items with key `k`, in input order. -/
theorem lookup_groupByKey {α : Type} (keyOf : α → String) (items : List α)
    (k : String) :
    (List.lookup k (groupByKey keyOf items)).getD []
      = items.filter (fun i => keyOf i = k) := by
  induction items using List.reverseRecOn with
  | nil => simp [groupByKey, List.lookup]
  | append_singleton l x ih =>
    rw [groupByKey_append_single, lookup_insertIntoGroup]
    by_cases h : k = keyOf x
    · subst h
      simp [List.filter_append, ih]
    · have hx : (fun i => decide (keyOf i = k)) x = false := by
        simpa using fun hcon => h hcon.symm
      simp [h, List.filter_append, ih, hx]

/-- The keys of `groupByKey` are duplicate-free. -/
theorem nodup_keys_groupByKey {α : Type} (keyOf : α → String)
    (items : List α) :
    ((groupByKey keyOf items).map Prod.fst).Nodup := by
  induction items using List.reverseRecOn with
  | nil => simp [groupByKey]
  | append_singleton l x ih =>
    rw [groupByKey_append_single]
    exact nodup_keys_insertIntoGroup (keyOf x) x _ ih

/-- Flattening the groups of `groupByKey` permutes back to the input. -/
theorem flatten_groupByKey {α : Type} (keyOf : α → String) (items : List α) :
    (((groupByKey keyOf items).map Prod.snd).flatten).Perm items := by
  induction items using List.reverseRecOn with
  | nil => simp [groupByKey]
  | append_singleton l x ih =>
    rw [groupByKey_append_single]
    exact (flatten_insertIntoGroup (keyOf x) x _).trans (ih.append_right [x])

/-- With duplicate-free keys, a member pair is what lookup finds. -/
theorem lookup_eq_of_mem {α : Type} {m : List (String × List α)}
    {k : String} {g : List α} (hnd : (m.map Prod.fst).Nodup)
    (hmem : (k, g) ∈ m) : List.lookup k m = some g := by
  induction m with
  | nil => cases hmem
  | cons p rest ih =>
    obtain ⟨k', g'⟩ := p
    rw [List.map_cons] at hnd
    have htailnd := (List.nodup_cons.mp hnd).2
    have hheadnotin := (List.nodup_cons.mp hnd).1
    rcases List.mem_cons.mp hmem with heq | htail
    · cases heq
      simp [List.lookup]
    · have hk : k ≠ k' := by
        rintro rfl
        exact hheadnotin (List.mem_map.mpr ⟨(k, g), htail, rfl⟩)
      simp only [List.lookup, beq_false_of_ne hk]
      exact ih htailnd htail

/-- C10: `groupTimelineByDate` partitions its input into groups with
pairwise-distinct keys; the group stored under key `k` is exactly the
sub-list (in input order) of the items whose key — `date_iso`, or
`"Unbekannt"` when `date_iso` is empty — equals `k`; and the concatenation of
all groups is a permutation of the input (every input item appears exactly
once across the groups). -/
theorem groupTimelineByDate_spec (items : List TimelineItem) :
    ((groupTimelineByDate items).map Prod.fst).Nodup
    ∧ (∀ k : String, (List.lookup k (groupTimelineByDate items)).getD []
        = items.filter (fun i => timelineGroupKey i = k))
    ∧ (((groupTimelineByDate items).map Prod.snd).flatten).Perm items
    ∧ (∀ p ∈ groupTimelineByDate items,
        p.2 = items.filter (fun i => timelineGroupKey i = p.1)) := by
  refine ⟨nodup_keys_groupByKey _ items,
    fun k => lookup_groupByKey _ items k,
    flatten_groupByKey _ items, ?_⟩
  intro p hp
  obtain ⟨k, g⟩ := p
  have hlk : List.lookup k (groupByKey timelineGroupKey items) = some g :=
    lookup_eq_of_mem (nodup_keys_groupByKey timelineGroupKey items) hp
  have hfilter := lookup_groupByKey timelineGroupKey items k
  rw [hlk] at hfilter
  simpa using hfilter

/-! ### C7: `DocumentItem` and client-side document statuses -/

/-- Lookup after appending a single pair. -/
theorem lookup_append_single (m : List (Int × String)) (k id : Int)
    (v : String) :
    List.lookup k (m ++ [(id, v)])
      = match List.lookup k m with
        | some s => some s
        | none => if k = id then some v else none := by
  induction m with
  | nil =>
    by_cases h : k = id
    · subst h
      simp [List.lookup]
    · simp [List.lookup, h, beq_false_of_ne h]
  | cons p rest ih =>
    obtain ⟨k', s'⟩ := p
    by_cases h : k = k'
    · subst h
      simp [List.lookup]
    · simp only [List.cons_append, List.lookup, beq_false_of_ne h]
      exact ih

/-- How `loadDocuments` updates the client status map: an id already present
keeps its status; an id of a listed document that is absent defaults to
`"indexed"`; all other ids stay absent. -/
theorem lookup_updateDocumentStatuses (prev : List (Int × String))
    (docs : List DocumentItem) (k : Int) :
    List.lookup k (updateDocumentStatuses prev docs)
      = match List.lookup k prev with
        | some s => some s
        | none =>
          if k ∈ docs.map DocumentItem.document_id then some "indexed"
          else none := by
  induction docs generalizing prev with
  | nil =>
    cases h : List.lookup k prev <;> simp [updateDocumentStatuses, h]
  | cons d rest ih =>
    have hstep : updateDocumentStatuses prev (d :: rest)
        = updateDocumentStatuses
            (match List.lookup d.document_id prev with
             | some _ => prev
             | none => prev ++ [(d.document_id, "indexed")]) rest := by
      unfold updateDocumentStatuses
      rfl
    rw [hstep]
    cases hd : List.lookup d.document_id prev with
    | some s =>
      rw [ih]
      cases hk : List.lookup k prev with
      | some s' => simp
      | none =>
        have hkd : k ≠ d.document_id := by
          rintro rfl
          rw [hk] at hd
          cases hd
        simp [List.mem_cons, hkd]
    | none =>
      rw [ih, lookup_append_single]
      cases hk : List.lookup k prev with
      | some s' => simp
      | none =>
        by_cases hkd : k = d.document_id
        · subst hkd
          simp
        · simp [List.mem_cons, hkd]

/-- C7 counterexample: the same server `DocumentItem` value is displayed with
two different statuses depending only on pre-existing client state, so the
status cannot be a field of the Document DTO received from the server — and
indeed `DocumentItem` (bundled lines 11-16) has no status field; a fresh
document defaults to the client-side status `"indexed"`. -/
theorem documentStatus_not_from_server :
    List.lookup 1 (updateDocumentStatuses []
        [⟨1, 1, "mietvertrag.pdf", none⟩]) = some "indexed"
    ∧ List.lookup 1 (updateDocumentStatuses [((1 : Int), "error")]
        [⟨1, 1, "mietvertrag.pdf", none⟩]) = some "error"
    ∧ ("indexed" : String) ≠ "error" := by
  decide

/-- C7 (amended): the Document DTO carries `document_id`, `property_id`,
`filename` and optional `uploaded_at` but no status; the per-document status
shown in the UI is client-side state which `loadDocuments` defaults to
`"indexed"` for any listed document that has none yet and otherwise leaves
unchanged. -/
theorem documentStatus_client_side (prev : List (Int × String))
    (docs : List DocumentItem) (k : Int) :
    (∀ s, List.lookup k prev = some s →
      List.lookup k (updateDocumentStatuses prev docs) = some s)
    ∧ (List.lookup k prev = none → k ∈ docs.map DocumentItem.document_id →
      List.lookup k (updateDocumentStatuses prev docs) = some "indexed")
    ∧ (List.lookup k prev = none → k ∉ docs.map DocumentItem.document_id →
      List.lookup k (updateDocumentStatuses prev docs) = none) := by
  have h := lookup_updateDocumentStatuses prev docs k
  refine ⟨?_, ?_, ?_⟩
  · intro s hs
    rw [h, hs]
  · intro hnone hmem
    rw [h, hnone]
    simp [hmem]
  · intro hnone hmem
    rw [h, hnone]
    simp [hmem]

/-- Witness for `documentStatus_client_side` at concrete inputs. -/
theorem documentStatus_client_side_witness :
    List.lookup 2 (updateDocumentStatuses [((2 : Int), "processing")]
        [⟨2, 1, "protokoll.pdf", none⟩]) = some "processing"
    ∧ List.lookup 3 (updateDocumentStatuses []
        [⟨3, 1, "abrechnung.pdf", none⟩]) = some "indexed" :=
  ⟨(documentStatus_client_side [((2 : Int), "processing")]
      [⟨2, 1, "protokoll.pdf", none⟩] 2).1 "processing" (by decide),
   (documentStatus_client_side [] [⟨3, 1, "abrechnung.pdf", none⟩] 3).2.1
      (by decide) (by decide)⟩

/-! ### C3: `apiCall` -/

/-- C3: a request through `apiCall` either resolves with the parsed body of
an OK-status response, or rejects with an `ApiError`; a timeout abort yields
an `ApiError` with `isTimeout = true` and no status; a non-OK response
yields an `ApiError` carrying exactly its status code (and `isTimeout =
false`); any other fetch failure also becomes an `ApiError`; and the default
timeout is 15000 ms. -/
theorem apiCall_spec (jsonParse : String → Option Json) (latencyMs : Nat)
    (status : Nat) (raw : String) (msg : Option String) :
    (respOk status = true →
      apiCall jsonParse latencyMs (.response status raw)
        = .ok ⟨parseResponse jsonParse raw, latencyMs, status⟩)
    ∧ (respOk status = false →
      apiCall jsonParse latencyMs (.response status raw)
        = .error ⟨errBodyMessage (parseResponse jsonParse raw) status,
            some status, false, some latencyMs⟩)
    ∧ (apiCall jsonParse latencyMs .abortError
        = .error ⟨"Zeitüberschreitung der Anfrage. Bitte erneut versuchen.",
            none, true, some latencyMs⟩)
    ∧ (apiCall jsonParse latencyMs (.jsError msg)
        = .error ⟨jsOrStr (msg.getD "") "Netzwerkfehler",
            none, false, some latencyMs⟩)
    ∧ resolvedTimeoutMs none = 15000 := by
  refine ⟨?_, ?_, rfl, rfl, rfl⟩
  · intro h
    simp [apiCall, h]
  · intro h
    simp [apiCall, h, mkApiError]

/-- Witness for `apiCall_spec`: an OK response resolves; a 404 rejects with
status 404. -/
theorem apiCall_spec_witness :
    (apiCall (fun _ => none) 1 (.response 200 "")
      = .ok ⟨parseResponse (fun _ => none) "", 1, 200⟩)
    ∧ (apiCall (fun _ => none) 1 (.response 404 "")
      = .error ⟨errBodyMessage (parseResponse (fun _ => none) "") 404,
          some 404, false, some 1⟩) :=
  ⟨(apiCall_spec (fun _ => none) 1 200 "" none).1 (by decide),
   (apiCall_spec (fun _ => none) 1 404 "" none).2.1 (by decide)⟩

/-! ### C4: `askChat` -/

/-- C4: `askChat` leaves the chat history unchanged when no property is
selected or the trimmed question is empty; otherwise it appends exactly two
messages — first the user message with the trimmed question, then one
assistant message that on success carries the answer text and the returned
sources (`data.answer || ""`, `data.sources || []`) and on failure carries a
`Fehler: …` text and no sources. -/
theorem askChat_spec (pid : Option Int) (question : String)
    (uid aid : String) (outcome : ChatOutcome)
    (history : List ChatMessage) :
    (jsFalsyId pid = true →
      askChat pid question uid aid outcome history = history)
    ∧ (jsTrim question = "" →
      askChat pid question uid aid outcome history = history)
    ∧ (jsFalsyId pid = false → jsTrim question ≠ "" →
      (∀ answer sources, outcome = .success answer sources →
        askChat pid question uid aid outcome history
          = history ++ [⟨uid, "user", jsTrim question, none, none⟩,
              ⟨aid, "assistant", answer.getD "",
                some (sources.getD []), some []⟩])
      ∧ (∀ e, outcome = .failure e →
        askChat pid question uid aid outcome history
          = history ++ [⟨uid, "user", jsTrim question, none, none⟩,
              ⟨aid, "assistant",
                "Fehler: " ++ normalizeApiError e "Unbekannter Fehler",
                none, none⟩])) := by
  refine ⟨?_, ?_, ?_⟩
  · intro h
    simp [askChat, h]
  · intro h
    unfold askChat
    rw [h]
    simp
  · intro hpid hq
    constructor
    · rintro answer sources rfl
      unfold askChat
      rw [hpid]
      simp only [Bool.false_eq_true, if_false, if_neg hq]
      simp
    · rintro e rfl
      unfold askChat
      rw [hpid]
      simp only [Bool.false_eq_true, if_false, if_neg hq]
      simp

/-- Witness for `askChat_spec` at concrete inputs (property 5, question
` Wann ist die Versammlung? `, a successful answer). -/
theorem askChat_spec_witness :
    askChat (some 5) " Wann ist die Versammlung? " "u1" "a1"
        (.success (some "Am 3. März.") (some [])) []
      = [⟨"u1", "user", "Wann ist die Versammlung?", none, none⟩,
         ⟨"a1", "assistant", "Am 3. März.", some [], some []⟩] := by
  have h := (askChat_spec (some 5) " Wann ist die Versammlung? " "u1" "a1"
    (.success (some "Am 3. März.") (some [])) []).2.2 (by decide) (by decide)
  have h2 := h.1 (some "Am 3. März.") (some []) rfl
  simpa [jsTrim] using h2

/-! ### C5: localStorage mirroring -/

/-- C5 counterexample: the latest `App` revision mirrors a fourth piece of
state — the selected UI language under `LANGUAGE_KEY` — in localStorage, so
the mirrored UX-continuity state is not exactly the three pieces the
specification lists. -/
theorem localStorage_mirror_not_three :
    ((appMirrorOps "http://x" "de" (some 7) "[]").map StorageOp.key
      = [BASE_KEY, LANGUAGE_KEY, ACTIVE_PROPERTY_KEY, chatHistoryKeyFor 7])
    ∧ LANGUAGE_KEY ∉ specClaimedMirrorKeys 7 := by
  decide

/-- C5 (amended): the frontend keeps four pieces of UX-continuity state
mirrored in localStorage — the per-property chat history, the selected
property id (key removed when none is selected), the API base URL, and the
selected UI language — and on startup each is initialised from its stored
value (the chat history when a property becomes active; a seventh key, the
Firebase token, is only ever removed at boot). -/
theorem localStorage_mirror_spec (apiBase lang serialized raw : String)
    (pid : Int) (envBase : Option String)
    (deserialize : String → Option (List ChatMessage)) :
    appMirrorOps apiBase lang (some pid) serialized
      = [.setItem BASE_KEY apiBase, .setItem LANGUAGE_KEY lang,
         .setItem ACTIVE_PROPERTY_KEY (toString pid)]
        ++ (if pid = 0 then []
            else [.setItem (chatHistoryKeyFor pid) serialized])
    ∧ appMirrorOps apiBase lang none serialized
      = [.setItem BASE_KEY apiBase, .setItem LANGUAGE_KEY lang,
         .removeItem ACTIVE_PROPERTY_KEY]
    ∧ initApiBase envBase (some raw)
      = stripTrailingSlashes (jsOrStr raw (defaultApiBase envBase))
    ∧ initApiBase envBase none = stripTrailingSlashes (defaultApiBase envBase)
    ∧ parseLanguage (some "en") = "en"
    ∧ parseLanguage (some "fr") = "fr"
    ∧ parseLanguage (some "es") = "de"
    ∧ parseLanguage none = "de"
    ∧ initActivePropertyId none = none
    ∧ initActivePropertyId (some raw)
      = (if raw = "" then none
         else match jsNumberInt raw with
           | some parsed => some parsed
           | none => none)
    ∧ initActivePropertyId (some (toString (7 : Int))) = some 7
    ∧ loadStoredChatHistory deserialize none (some raw) = []
    ∧ (pid ≠ 0 → loadStoredChatHistory deserialize (some pid) (some raw)
        = if raw = "" then [] else (deserialize raw).getD []) := by
  refine ⟨?_, rfl, ?_, rfl, rfl, rfl, rfl, rfl, rfl, rfl, by decide, rfl, ?_⟩
  · by_cases h : pid = 0
    · subst h
      simp [appMirrorOps, apiBaseMirrorOp, languageMirrorOp,
        activePropertyMirrorOp, chatHistoryMirrorOp]
    · simp [appMirrorOps, apiBaseMirrorOp, languageMirrorOp,
        activePropertyMirrorOp, chatHistoryMirrorOp, h]
  · unfold initApiBase
    rfl
  · intro h
    simp [loadStoredChatHistory, h]

/-- Witness for `localStorage_mirror_spec` at concrete inputs. -/
theorem localStorage_mirror_spec_witness :
    appMirrorOps "http://api" "fr" (some 9) "[]"
      = [.setItem BASE_KEY "http://api", .setItem LANGUAGE_KEY "fr",
         .setItem ACTIVE_PROPERTY_KEY (toString (9 : Int))]
        ++ (if (9 : Int) = 0 then []
            else [.setItem (chatHistoryKeyFor 9) "[]"])
    ∧ loadStoredChatHistory (fun _ => some []) (some 9) (some "[]")
      = (if ("[]" : String) = "" then []
         else ((fun (_ : String) => some ([] : List ChatMessage)) "[]").getD []) :=
  ⟨(localStorage_mirror_spec "http://api" "fr" "[]" "[]" 9 none
      (fun _ => some [])).1,
   (localStorage_mirror_spec "http://api" "fr" "[]" "[]" 9 none
      (fun _ => some [])).2.2.2.2.2.2.2.2.2.2.2.2 (by decide)⟩

/-! ### C6: client-side constraints beyond mirroring server state -/

/-- C6 counterexample: the client does enforce constraints of its own — a
concrete non-PDF/ZIP file is rejected by `validateFiles` instead of being
kept, and a concrete server-provided category string is normalised to a
different value (`"info"`) before being used for filtering/grouping. -/
theorem client_constraints_exist :
    (validateFiles [⟨"notizen.txt", "text/plain", 1000⟩]).1 = []
    ∧ (validateFiles [⟨"notizen.txt", "text/plain", 1000⟩]).2
      = ["notizen.txt: nur PDF- oder ZIP-Dateien sind erlaubt."]
    ∧ normalizeCategory "besichtigung" = "info"
    ∧ ("besichtigung" : String) ≠ "info" := by
  decide

/-- C6 (amended): the client does maintain client-side constraints beyond
mirroring the last successful server response: every file it keeps in
`selectedFiles` has passed validation (PDF/ZIP by MIME type or lower-cased
extension, and at most 20 MiB), and every category value used for timeline
filtering/grouping is normalised into the fixed five-element whitelist. -/
theorem client_constraints_spec (files : List JsFile) (f : JsFile)
    (c : String) (hf : f ∈ (validateFiles files).1) :
    (isPdfType f || hasPdfExt f || isZipType f || hasZipExt f) = true
    ∧ f.size ≤ MAX_FILE_SIZE
    ∧ normalizeCategory c ∈ CATEGORY_VALUES := by
  rw [(validateFiles_eq_filter files).1] at hf
  have hacc : specUploadAccepted f = true := List.of_mem_filter hf
  unfold specUploadAccepted at hacc
  refine ⟨?_, ?_, ?_⟩
  · exact (Bool.and_eq_true_iff.mp hacc).1
  · simpa using (Bool.and_eq_true_iff.mp hacc).2
  · rw [normalizeCategory_eq_mem]
    by_cases h : c ∈ CATEGORY_VALUES
    · rwa [if_pos h]
    · rw [if_neg h]
      decide

/-- Witness for `client_constraints_spec`: a valid PDF file. -/
theorem client_constraints_spec_witness :
    (isPdfType ⟨"vertrag.pdf", "application/pdf", 100⟩
      || hasPdfExt ⟨"vertrag.pdf", "application/pdf", 100⟩
      || isZipType ⟨"vertrag.pdf", "application/pdf", 100⟩
      || hasZipExt ⟨"vertrag.pdf", "application/pdf", 100⟩) = true
    ∧ (⟨"vertrag.pdf", "application/pdf", 100⟩ : JsFile).size ≤ MAX_FILE_SIZE
    ∧ normalizeCategory "zahlung" ∈ CATEGORY_VALUES :=
  client_constraints_spec [⟨"vertrag.pdf", "application/pdf", 100⟩]
    ⟨"vertrag.pdf", "application/pdf", 100⟩ "zahlung" (by decide)

/-- Witness for `groupTimelineByDate_spec` at a concrete three-item list with
a repeated date. -/
theorem groupTimelineByDate_spec_witness :
    ((groupTimelineByDate
        [cxDeadlineLater, cxPaymentEarlier, cxDeadlineLater]).map Prod.fst).Nodup
    ∧ (∀ k : String,
        (List.lookup k (groupTimelineByDate
            [cxDeadlineLater, cxPaymentEarlier, cxDeadlineLater])).getD []
          = [cxDeadlineLater, cxPaymentEarlier, cxDeadlineLater].filter
              (fun i => timelineGroupKey i = k))
    ∧ (((groupTimelineByDate
        [cxDeadlineLater, cxPaymentEarlier, cxDeadlineLater]).map
          Prod.snd).flatten).Perm
        [cxDeadlineLater, cxPaymentEarlier, cxDeadlineLater]
    ∧ (∀ p ∈ groupTimelineByDate
        [cxDeadlineLater, cxPaymentEarlier, cxDeadlineLater],
        p.2 = [cxDeadlineLater, cxPaymentEarlier, cxDeadlineLater].filter
            (fun i => timelineGroupKey i = p.1)) :=
  groupTimelineByDate_spec [cxDeadlineLater, cxPaymentEarlier, cxDeadlineLater]
